import Mathlib

/-!
Verification of the shared hand-tracking module (`hand-tracking.js`).

The module turns per-frame 21-point hand landmark sets into a normalized
openness scalar and an orientation basis, smooths both over time, and
publishes them through accessors and single-slot callbacks.

We embed the module shallowly over the reals: each JS number becomes an
`ℝ`, `Math.sqrt` becomes `Real.sqrt`, and the module-level mutable state
becomes an explicit state record threaded through step functions.  The
external THREE.js library calls (`Matrix4.makeBasis` /
`Quaternion.setFromRotationMatrix`, `Quaternion.slerp`) are not part of
this repository; they enter the embedding as function parameters
(`basisToQuat`, `slerp`), matching the source's `typeof THREE` guard.
-/

namespace HandTracking

/-- One MediaPipe hand landmark.  The source reads `.x`, `.y` and `.z`
(defaulting a missing `z` to `0` via `landmark.z || 0`); we model the
already-defaulted value, so `z` is always present. -/
structure Landmark where
  x : ℝ
  y : ℝ
  z : ℝ

/-- Euclidean distance between two landmarks, as computed in
`calculateHandOpenness`: `Math.sqrt(dx*dx + dy*dy + dz*dz)` with
`d• = b.• - a.•`. -/
noncomputable def dist3 (a b : Landmark) : ℝ :=
  Real.sqrt ((b.x - a.x) * (b.x - a.x) + (b.y - a.y) * (b.y - a.y) +
    (b.z - a.z) * (b.z - a.z))

/-- The smoothing constant `SMOOTHING = 0.12` of the source. -/
def SMOOTHING : ℝ := 0.12

/-- `calculateHandOpenness` (source lines 206–243).  Scale reference is the
wrist (index 0) to middle-MCP (index 9) distance; below `0.001` the function
returns `0` before any division.  The five finger `{tip, base}` pairs of the
source are `(4,2), (8,5), (12,9), (16,13), (20,17)`; the loop is unrolled. -/
noncomputable def calculateHandOpenness (lm : Fin 21 → Landmark) : ℝ :=
  let handSize := dist3 (lm 0) (lm 9)
  if handSize < 0.001 then 0
  else
    let totalRatio :=
      dist3 (lm 2) (lm 4) / handSize +
      (dist3 (lm 5) (lm 8) / handSize +
      (dist3 (lm 9) (lm 12) / handSize +
      (dist3 (lm 13) (lm 16) / handSize +
      dist3 (lm 17) (lm 20) / handSize)))
    let avgRatio := totalRatio / 5
    let normalized := (avgRatio - 0.45) / (0.85 - 0.45)
    max 0 (min 1 normalized)

/-! ## Vectors (THREE.Vector3 as used by `calculateHandRotation`) -/

/-- A 3-D vector, standing in for `THREE.Vector3`. -/
@[ext]
structure Vec3 where
  x : ℝ
  y : ℝ
  z : ℝ

namespace Vec3

/-- The zero vector. -/
def zero : Vec3 := ⟨0, 0, 0⟩

/-- Componentwise subtraction (`Vector3.subVectors(a, b) = a - b`). -/
def sub (a b : Vec3) : Vec3 := ⟨a.x - b.x, a.y - b.y, a.z - b.z⟩

/-- Scalar multiple. -/
def smul (k : ℝ) (v : Vec3) : Vec3 := ⟨k * v.x, k * v.y, k * v.z⟩

/-- Dot product. -/
def dot (a b : Vec3) : ℝ := a.x * b.x + a.y * b.y + a.z * b.z

/-- Cross product (`Vector3.crossVectors`). -/
def cross (a b : Vec3) : Vec3 :=
  ⟨a.y * b.z - a.z * b.y, a.z * b.x - a.x * b.z, a.x * b.y - a.y * b.x⟩

/-- Euclidean length (`Vector3.length`). -/
noncomputable def length (v : Vec3) : ℝ := Real.sqrt (dot v v)

/-- `Vector3.normalize` divides by `length() || 1`: a zero vector is left
unchanged, any other vector is divided by its length. -/
noncomputable def normalize (v : Vec3) : Vec3 :=
  if length v = 0 then v
  else ⟨v.x / length v, v.y / length v, v.z / length v⟩

end Vec3

/-! ## Orientation basis (`calculateHandRotation`, source lines 248–296) -/

/-- Landmark-to-camera-frame conversion used at the top of
`calculateHandRotation`: re-center x and y around 0.5 and flip y. -/
def toVec (l : Landmark) : Vec3 := ⟨l.x - 0.5, -(l.y - 0.5), l.z⟩

/-- The orthonormal basis built by `calculateHandRotation` before the
quaternion conversion, returned as `(handRight, handUp, handForward)` in
the order they are passed to `Matrix4.makeBasis`.  `handRight` is the
re-orthogonalized vector `normalize(cross(handUp, handForward))`. -/
noncomputable def handBasis (lm : Fin 21 → Landmark) : Vec3 × Vec3 × Vec3 :=
  let wrist := toVec (lm 0)
  let indexMCP := toVec (lm 5)
  let pinkyMCP := toVec (lm 17)
  let middleMCP := toVec (lm 9)
  let handUp := Vec3.normalize (Vec3.sub middleMCP wrist)
  let handRight0 := Vec3.normalize (Vec3.sub indexMCP pinkyMCP)
  let handForward := Vec3.normalize (Vec3.cross handRight0 handUp)
  let handRight := Vec3.normalize (Vec3.cross handUp handForward)
  (handRight, handUp, handForward)

/-! ## Module state and per-frame / per-tick steps

The module-level mutable variables of the source become the fields of
`HTState`; `onHandResults` and `updateHandTracking` become pure step
functions.  `THREE.Quaternion` is modelled as a record of four reals whose
internals we never inspect; the two library operations the module calls —
`makeBasis`+`setFromRotationMatrix` (here `basisToQuat`) and
`Quaternion.slerp` (here `slerp`) — belong to THREE.js, not to this
repository, and are taken as parameters. -/

/-- Stand-in for `THREE.Quaternion` values. -/
structure Quat where
  qx : ℝ
  qy : ℝ
  qz : ℝ
  qw : ℝ

/-- The module's mutable state (source lines 11–29).  The two callback
slots are modelled by whether a callback is registered; invocations are
reported as emitted events. -/
structure HTState where
  handOpenness : ℝ
  targetHandOpenness : ℝ
  smoothedOpenness : ℝ
  isHandDetected : Bool
  handedness : String
  handRotation : Option Quat
  targetHandRotation : Option Quat
  smoothedHandRotation : Option Quat
  landmarks : Option (Fin 21 → Landmark)
  onHandUpdate : Bool
  onHandLost : Bool

/-- The state right after module load: all numeric values 0, no hand,
handedness defaults to "Right", no quaternions yet, no callbacks. -/
def initState : HTState :=
  { handOpenness := 0
    targetHandOpenness := 0
    smoothedOpenness := 0
    isHandDetected := false
    handedness := "Right"
    handRotation := none
    targetHandRotation := none
    smoothedHandRotation := none
    landmarks := none
    onHandUpdate := false
    onHandLost := false }

/-- A MediaPipe results object as far as `onHandResults` reads it:
`multiHandLandmarks` and `multiHandedness` may each be absent (`none`),
empty, or non-empty lists. -/
structure HandResults where
  multiHandLandmarks : Option (List (Fin 21 → Landmark))
  multiHandedness : Option (List String)

/-- Callback invocations observable by a consumer.  `update` carries the
fields of the snapshot object passed to the `onHandUpdate` callback. -/
inductive HTEvent where
  | update (openness : ℝ) (rotation : Option Quat) (lms : Fin 21 → Landmark)
  | lost

/-- `calculateHandRotation` (source lines 248–296): returns `null` when
THREE is unavailable, otherwise converts the orthonormal basis to a
quaternion through the library (`basisToQuat` parameter, applied to
`(handRight, handUp, handForward)` as in `makeBasis`). -/
noncomputable def calculateHandRotation (three : Option (Vec3 → Vec3 → Vec3 → Quat))
    (lm : Fin 21 → Landmark) : Option Quat :=
  match three with
  | none => none
  | some basisToQuat =>
    some (basisToQuat (handBasis lm).1 (handBasis lm).2.1 (handBasis lm).2.2)

/-- `onHandResults` (source lines 111–162), minus the preview drawing
(pure canvas side effect).  Returns the new state and the list of callback
invocations, in order.  The detected branch requires
`multiHandLandmarks && multiHandLandmarks.length > 0`; the snapshot passed
to the update callback reads `_handOpenness` and `_handRotation`, which
this function never writes. -/
noncomputable def onHandResults (three : Option (Vec3 → Vec3 → Vec3 → Quat))
    (s : HTState) (results : HandResults) : HTState × List HTEvent :=
  match results.multiHandLandmarks with
  | some (lm :: _) =>
    let handedness2 := match results.multiHandedness with
      | some (h :: _) => h
      | _ => s.handedness
    let s2 := { s with
      isHandDetected := true
      landmarks := some lm
      handedness := handedness2
      targetHandOpenness := calculateHandOpenness lm
      targetHandRotation := calculateHandRotation three lm }
    (s2, if s.onHandUpdate then [HTEvent.update s.handOpenness s.handRotation lm] else [])
  | _ =>
    let s2 := { s with
      isHandDetected := false
      landmarks := none
      targetHandOpenness := 0 }
    (s2, if s.onHandLost then [HTEvent.lost] else [])

/-- `updateHandTracking` (source lines 301–311): exponential smoothing of
openness, then — only when a hand is detected and both the target and the
smoothed quaternion exist — a slerp step on the rotation by
`SMOOTHING * 1.5`, copied into `_handRotation`. -/
noncomputable def updateHandTracking (slerp : Quat → Quat → ℝ → Quat)
    (s : HTState) : HTState :=
  let sm := s.smoothedOpenness + (s.targetHandOpenness - s.smoothedOpenness) * SMOOTHING
  let s2 := { s with smoothedOpenness := sm, handOpenness := sm }
  match s2.isHandDetected, s2.targetHandRotation, s2.smoothedHandRotation with
  | true, some t, some q =>
    let q2 := slerp q t (SMOOTHING * 1.5)
    { s2 with smoothedHandRotation := some q2, handRotation := some q2 }
  | _, _, _ => s2

/-- One interleaving step: either a detector frame callback or a consumer
update tick. -/
inductive HTAction where
  | frame (results : HandResults)
  | tick

/-- Apply one action to the state. -/
noncomputable def stepState (three : Option (Vec3 → Vec3 → Vec3 → Quat))
    (slerp : Quat → Quat → ℝ → Quat) (s : HTState) : HTAction → HTState
  | .frame results => (onHandResults three s results).1
  | .tick => updateHandTracking slerp s

/-- Run a sequence of actions from a state. -/
noncomputable def runActions (three : Option (Vec3 → Vec3 → Vec3 → Quat))
    (slerp : Quat → Quat → ℝ → Quat) (s : HTState) (acts : List HTAction) : HTState :=
  acts.foldl (stepState three slerp) s

/-- An action that carries no detected hand: an update tick, or a frame
whose hand list is absent or empty. -/
def noHandAction : HTAction → Prop
  | .frame results =>
    results.multiHandLandmarks = none ∨ results.multiHandLandmarks = some []
  | .tick => True

/-! ## Spec-side openness definition (for the per-finger-ratio claim)

`opennessPerSpec` transcribes the spec's §4.2 openness algorithm with the
thumb "base" index left as a parameter, so that the spec's stated choice
(thumb IP, MediaPipe index 3) and the source's actual choice (thumb MCP,
index 2) can be compared against `calculateHandOpenness`. -/

/-- The spec's openness algorithm: scale reference wrist→middle-MCP,
epsilon fail-safe, five tip/base extension ratios (thumb base given by
`thumbBase`), average, linear remap of `[0.45, 0.85]` onto `[0,1]` with
clamping. -/
noncomputable def opennessPerSpec (thumbBase : Fin 21) (lm : Fin 21 → Landmark) : ℝ :=
  let ref := dist3 (lm 0) (lm 9)
  if ref < 0.001 then 0
  else
    let ratios := [dist3 (lm thumbBase) (lm 4) / ref,
                   dist3 (lm 5) (lm 8) / ref,
                   dist3 (lm 9) (lm 12) / ref,
                   dist3 (lm 13) (lm 16) / ref,
                   dist3 (lm 17) (lm 20) / ref]
    max 0 (min 1 ((ratios.sum / 5 - 0.45) / (0.85 - 0.45)))

/-- Uniform scaling of every landmark about the wrist (landmark 0) by a
factor `k`, the transformation named by the scale-invariance property. -/
def scaleAboutWrist (k : ℝ) (lm : Fin 21 → Landmark) : Fin 21 → Landmark :=
  fun i =>
    ⟨(lm 0).x + k * ((lm i).x - (lm 0).x),
     (lm 0).y + k * ((lm i).y - (lm 0).y),
     (lm 0).z + k * ((lm i).z - (lm 0).z)⟩

/-! ## Concrete landmark sets used by witnesses and counterexamples

All of them lie on the x axis, so every distance is an absolute
difference of rationals and `Real.sqrt` evaluates exactly. -/

/-- X coordinates of a fully open flat hand of reference size 1: wrist at
0, middle MCP at 1, every finger tip exactly 1 away from its base pair of
`calculateHandOpenness` (which therefore rates every extension ratio 1 and
clamps the openness to 1). -/
def xOpen (n : ℕ) : ℝ :=
  if n = 9 then 1
  else if n = 12 then 2
  else if n = 4 ∨ n = 8 ∨ n = 16 ∨ n = 20 then 1
  else 0

/-- The open flat hand as a landmark set. -/
def lmOpen : Fin 21 → Landmark := fun i => ⟨xOpen i.val, 0, 0⟩

/-- The open flat hand shrunk to reference size `0.002`: barely above the
epsilon threshold, with openness still 1. -/
def lmTiny : Fin 21 → Landmark := fun i => ⟨0.002 * xOpen i.val, 0, 0⟩

/-- X coordinates distinguishing the thumb-MCP (index 2) and thumb-IP
(index 3) choices of thumb base: the thumb tip (index 4) coincides with
the IP joint but sits `0.5` away from the MCP, and every other finger has
extension ratio `0.6`, so neither of the two resulting openness values is
clamped. -/
def xThumb (n : ℕ) : ℝ :=
  if n = 9 then 1
  else if n = 3 then 0.5
  else if n = 4 then 0.5
  else if n = 8 then 0.6
  else if n = 12 then 1.6
  else if n = 16 then 0.6
  else if n = 20 then 0.6
  else 0

/-- The thumb-base-distinguishing landmark set. -/
def lmThumb : Fin 21 → Landmark := fun i => ⟨xThumb i.val, 0, 0⟩

/-- A fully degenerate landmark set: every landmark at the origin. -/
def lmZero : Fin 21 → Landmark := fun _ => ⟨0, 0, 0⟩

/-- Landmark set whose wrist, middle-MCP, index-MCP and pinky-MCP map
under `toVec` to `0`, `(0,1,0)`, `(1,0,0)` and `0`: a non-degenerate
input for the orientation basis. -/
def lmBasis : Fin 21 → Landmark := fun i =>
  if i = 9 then ⟨0.5, -0.5, 0⟩
  else if i = 5 then ⟨1.5, 0.5, 0⟩
  else ⟨0.5, 0.5, 0⟩

/-- A trivial slerp stand-in used to instantiate witnesses. -/
def trivSlerp : Quat → Quat → ℝ → Quat := fun q _ _ => q

/-- A trivial basis-to-quaternion stand-in used to instantiate witnesses. -/
def trivBasisToQuat : Vec3 → Vec3 → Vec3 → Quat := fun _ _ _ => ⟨0, 0, 0, 1⟩

/-- State with a registered update callback, as left by
`setOnHandUpdate`. -/
def stUpdateCb : HTState := { initState with onHandUpdate := true }

/-- State with a registered lost callback, a detected hand and a nonzero
openness target, as reachable right before the hand disappears. -/
def stLostCb : HTState :=
  { initState with
    onHandLost := true
    isHandDetected := true
    targetHandOpenness := 0.5
    landmarks := some lmOpen }

/-- State holding target openness 1 with smoothed openness 0. -/
def stTarget1 : HTState := { initState with targetHandOpenness := 1 }

/-- A detected-hand state with both rotation slots populated. -/
def stRot : HTState :=
  { initState with
    isHandDetected := true
    targetHandRotation := some ⟨0, 0, 0, 1⟩
    smoothedHandRotation := some ⟨1, 0, 0, 0⟩ }

/-- A frame result carrying the open flat hand. -/
def resOpen : HandResults := ⟨some [lmOpen], some ["Right"]⟩

/-- A frame result with no hands field at all. -/
def resNone : HandResults := ⟨none, none⟩

/-- A frame result with an empty hand list. -/
def resEmpty : HandResults := ⟨some [], some []⟩

/-! ## Basic lemmas about the openness computation -/

/-- Distance along the x axis: all our concrete witnesses put every
landmark on the x axis so that `Real.sqrt` evaluates. -/
lemma dist3_xaxis (a b y z : ℝ) :
    dist3 ⟨a, y, z⟩ ⟨b, y, z⟩ = |b - a| := by
  unfold dist3
  simp only [sub_self, mul_zero, zero_mul, add_zero]
  rw [← Real.sqrt_mul_self_eq_abs]

/-- The openness value always lies in `[0,1]`. -/
lemma calculateHandOpenness_mem (lm : Fin 21 → Landmark) :
    0 ≤ calculateHandOpenness lm ∧ calculateHandOpenness lm ≤ 1 := by
  unfold calculateHandOpenness
  by_cases h : dist3 (lm 0) (lm 9) < 0.001
  · simp only [if_pos h]
    norm_num
  · simp only [if_neg h]
    exact ⟨le_max_left 0 _, max_le (by norm_num) (min_le_left 1 _)⟩

/-- Below the epsilon threshold the function returns `0` (the guard fires
before any ratio is formed). -/
lemma calculateHandOpenness_degenerate (lm : Fin 21 → Landmark)
    (h : dist3 (lm 0) (lm 9) < 0.001) :
    calculateHandOpenness lm = 0 := by
  unfold calculateHandOpenness
  exact if_pos h

/-- Numeric values of the `Fin 21` index literals appearing in the
openness computation. -/
lemma finVals :
    ((0 : Fin 21)).val = 0 ∧ ((2 : Fin 21)).val = 2 ∧ ((4 : Fin 21)).val = 4 ∧
    ((5 : Fin 21)).val = 5 ∧ ((8 : Fin 21)).val = 8 ∧ ((9 : Fin 21)).val = 9 ∧
    ((12 : Fin 21)).val = 12 ∧ ((13 : Fin 21)).val = 13 ∧
    ((16 : Fin 21)).val = 16 ∧ ((17 : Fin 21)).val = 17 ∧
    ((20 : Fin 21)).val = 20 :=
  ⟨rfl, rfl, rfl, rfl, rfl, rfl, rfl, rfl, rfl, rfl, rfl⟩

/-- Distances within the open flat hand. -/
lemma dist3_lmOpen (i j : Fin 21) :
    dist3 (lmOpen i) (lmOpen j) = |xOpen j.val - xOpen i.val| := by
  unfold lmOpen
  exact dist3_xaxis _ _ 0 0

/-- The open hand evaluates to openness 1. -/
lemma calculateHandOpenness_lmOpen : calculateHandOpenness lmOpen = 1 := by
  unfold calculateHandOpenness
  rw [dist3_lmOpen, dist3_lmOpen, dist3_lmOpen, dist3_lmOpen, dist3_lmOpen,
    dist3_lmOpen]
  simp only [finVals.1, finVals.2.1, finVals.2.2.1, finVals.2.2.2.1,
    finVals.2.2.2.2.1, finVals.2.2.2.2.2.1, finVals.2.2.2.2.2.2.1,
    finVals.2.2.2.2.2.2.2.1, finVals.2.2.2.2.2.2.2.2.1,
    finVals.2.2.2.2.2.2.2.2.2.1, finVals.2.2.2.2.2.2.2.2.2.2]
  norm_num [xOpen, abs_of_nonneg, min_def, max_def]

/-! ## Vector algebra lemmas -/

namespace Vec3

lemma dot_comm (a b : Vec3) : dot a b = dot b a := by
  unfold dot; ring

lemma dot_self_nonneg (v : Vec3) : 0 ≤ dot v v := by
  unfold dot
  have hx := mul_self_nonneg v.x
  have hy := mul_self_nonneg v.y
  have hz := mul_self_nonneg v.z
  linarith

lemma dot_self_eq_zero_iff (v : Vec3) : dot v v = 0 ↔ v = zero := by
  constructor
  · intro h
    unfold dot at h
    have hx0 := mul_self_nonneg v.x
    have hy0 := mul_self_nonneg v.y
    have hz0 := mul_self_nonneg v.z
    have hx : v.x = 0 := mul_self_eq_zero.mp (by linarith)
    have hy : v.y = 0 := mul_self_eq_zero.mp (by linarith)
    have hz : v.z = 0 := mul_self_eq_zero.mp (by linarith)
    ext
    · exact hx
    · exact hy
    · exact hz
  · intro h
    subst h
    simp [dot, zero]

lemma dot_self_pos (v : Vec3) (h : v ≠ zero) : 0 < dot v v :=
  lt_of_le_of_ne (dot_self_nonneg v) fun h0 => h ((dot_self_eq_zero_iff v).mp h0.symm)

lemma length_pos (v : Vec3) (h : v ≠ zero) : 0 < length v :=
  Real.sqrt_pos.mpr (dot_self_pos v h)

lemma sq_length (v : Vec3) : length v * length v = dot v v :=
  Real.mul_self_sqrt (dot_self_nonneg v)

lemma normalize_eq_smul (v : Vec3) (h : v ≠ zero) :
    normalize v = smul (length v)⁻¹ v := by
  unfold normalize
  rw [if_neg (ne_of_gt (length_pos v h))]
  unfold smul
  ext <;> field_simp

lemma dot_smul_left (k : ℝ) (a b : Vec3) : dot (smul k a) b = k * dot a b := by
  unfold dot smul; ring

lemma dot_smul_right (k : ℝ) (a b : Vec3) : dot a (smul k b) = k * dot a b := by
  unfold dot smul; ring

lemma cross_smul_left (k : ℝ) (a b : Vec3) :
    cross (smul k a) b = smul k (cross a b) := by
  unfold cross smul
  ext <;> ring

lemma cross_smul_right (k : ℝ) (a b : Vec3) :
    cross a (smul k b) = smul k (cross a b) := by
  unfold cross smul
  ext <;> ring

lemma smul_ne_zero_of (k : ℝ) (v : Vec3) (hk : k ≠ 0) (hv : v ≠ zero) :
    smul k v ≠ zero := by
  intro h
  apply hv
  have hd : dot (smul k v) (smul k v) = k * (k * dot v v) := by
    rw [dot_smul_left, dot_smul_right]
  rw [h] at hd
  have : dot v v = 0 := by
    have hz : dot zero zero = 0 := by simp [dot, zero]
    rw [hz] at hd
    rcases mul_eq_zero.mp hd.symm with h1 | h1
    · exact absurd h1 hk
    · rcases mul_eq_zero.mp h1 with h2 | h2
      · exact absurd h2 hk
      · exact h2
  exact (dot_self_eq_zero_iff v).mp this

lemma dot_normalize_self (v : Vec3) (h : v ≠ zero) :
    dot (normalize v) (normalize v) = 1 := by
  rw [normalize_eq_smul v h, dot_smul_left, dot_smul_right]
  have hd : dot v v ≠ 0 := ne_of_gt (dot_self_pos v h)
  have hl : length v * length v = dot v v := sq_length v
  have hlne : length v ≠ 0 := ne_of_gt (length_pos v h)
  field_simp
  nlinarith [hl]

lemma length_normalize (v : Vec3) (h : v ≠ zero) : length (normalize v) = 1 := by
  rw [length, dot_normalize_self v h, Real.sqrt_one]

lemma normalize_ne_zero (v : Vec3) (h : v ≠ zero) : normalize v ≠ zero := by
  intro h0
  have := dot_normalize_self v h
  rw [h0] at this
  simp [dot, zero] at this

lemma normalize_of_unit (v : Vec3) (h : dot v v = 1) : normalize v = v := by
  unfold normalize
  have hl : length v = 1 := by rw [length, h, Real.sqrt_one]
  rw [if_neg (by rw [hl]; norm_num), hl]
  ext <;> simp

lemma dot_cross_left (a b : Vec3) : dot (cross a b) a = 0 := by
  unfold dot cross; ring

lemma dot_cross_right (a b : Vec3) : dot (cross a b) b = 0 := by
  unfold dot cross; ring

lemma dot_cross_self (a b : Vec3) :
    dot (cross a b) (cross a b) = dot a a * dot b b - dot a b * dot a b := by
  unfold dot cross; ring

lemma cross_cross_same (a b : Vec3) :
    cross (cross a b) a = sub (smul (dot a a) b) (smul (dot a b) a) := by
  unfold cross sub smul dot
  ext <;> ring

end Vec3

lemma smul_one (v : Vec3) : Vec3.smul 1 v = v := by
  unfold Vec3.smul
  ext <;> simp

lemma smul_zero_vec (v : Vec3) : Vec3.smul 0 v = Vec3.zero := by
  unfold Vec3.smul Vec3.zero
  ext <;> simp

lemma sub_zero_vec (v : Vec3) : Vec3.sub v Vec3.zero = v := by
  unfold Vec3.sub Vec3.zero
  ext <;> simp

/-- Core geometry of `calculateHandRotation`: from any nonzero, non-parallel
raw `up`/`right` candidate vectors, the normalize/cross/re-orthogonalize
sequence of the source produces a right-handed orthonormal triple. -/
lemma basis_orthonormal_aux (u₀ r₀ : Vec3)
    (hu : u₀ ≠ Vec3.zero) (hr : r₀ ≠ Vec3.zero)
    (hc : Vec3.cross r₀ u₀ ≠ Vec3.zero) :
    Vec3.dot (Vec3.normalize (Vec3.cross (Vec3.normalize u₀)
        (Vec3.normalize (Vec3.cross (Vec3.normalize r₀) (Vec3.normalize u₀)))))
      (Vec3.normalize u₀) = 0 ∧
    Vec3.dot (Vec3.normalize (Vec3.cross (Vec3.normalize u₀)
        (Vec3.normalize (Vec3.cross (Vec3.normalize r₀) (Vec3.normalize u₀)))))
      (Vec3.normalize (Vec3.cross (Vec3.normalize r₀) (Vec3.normalize u₀))) = 0 ∧
    Vec3.dot (Vec3.normalize u₀)
      (Vec3.normalize (Vec3.cross (Vec3.normalize r₀) (Vec3.normalize u₀))) = 0 ∧
    Vec3.length (Vec3.normalize (Vec3.cross (Vec3.normalize u₀)
        (Vec3.normalize (Vec3.cross (Vec3.normalize r₀) (Vec3.normalize u₀))))) = 1 ∧
    Vec3.length (Vec3.normalize u₀) = 1 ∧
    Vec3.length (Vec3.normalize (Vec3.cross (Vec3.normalize r₀) (Vec3.normalize u₀))) = 1 ∧
    Vec3.cross (Vec3.normalize (Vec3.cross (Vec3.normalize u₀)
        (Vec3.normalize (Vec3.cross (Vec3.normalize r₀) (Vec3.normalize u₀)))))
      (Vec3.normalize u₀) =
      Vec3.normalize (Vec3.cross (Vec3.normalize r₀) (Vec3.normalize u₀)) := by
  set u := Vec3.normalize u₀ with hudef
  set rn := Vec3.normalize r₀ with hrdef
  have hu1 : Vec3.dot u u = 1 := Vec3.dot_normalize_self u₀ hu
  have hr1 : Vec3.dot rn rn = 1 := Vec3.dot_normalize_self r₀ hr
  -- the first cross product is a nonzero multiple of `cross r₀ u₀`
  have hcne : Vec3.cross rn u ≠ Vec3.zero := by
    have ha : (Vec3.length r₀)⁻¹ ≠ 0 := inv_ne_zero (ne_of_gt (Vec3.length_pos r₀ hr))
    have hb : (Vec3.length u₀)⁻¹ ≠ 0 := inv_ne_zero (ne_of_gt (Vec3.length_pos u₀ hu))
    rw [hrdef, hudef, Vec3.normalize_eq_smul r₀ hr, Vec3.normalize_eq_smul u₀ hu,
      Vec3.cross_smul_left, Vec3.cross_smul_right]
    exact Vec3.smul_ne_zero_of _ _ ha (Vec3.smul_ne_zero_of _ _ hb hc)
  set f := Vec3.normalize (Vec3.cross rn u) with hfdef
  have hf1 : Vec3.dot f f = 1 := Vec3.dot_normalize_self _ hcne
  have huf : Vec3.dot u f = 0 := by
    rw [hfdef, Vec3.normalize_eq_smul _ hcne, Vec3.dot_smul_right,
      Vec3.dot_comm u, Vec3.dot_cross_right, mul_zero]
  -- the re-orthogonalized right vector is the unit vector `cross u f` itself
  have hcuf : Vec3.dot (Vec3.cross u f) (Vec3.cross u f) = 1 := by
    rw [Vec3.dot_cross_self, hu1, hf1, huf]
    ring
  have hreq : Vec3.normalize (Vec3.cross u f) = Vec3.cross u f :=
    Vec3.normalize_of_unit _ hcuf
  refine ⟨?_, ?_, huf, ?_, ?_, ?_, ?_⟩
  · rw [hreq]
    exact Vec3.dot_cross_left u f
  · rw [hreq]
    exact Vec3.dot_cross_right u f
  · rw [hreq, Vec3.length, hcuf, Real.sqrt_one]
  · exact Vec3.length_normalize u₀ hu
  · exact Vec3.length_normalize _ hcne
  · rw [hreq, Vec3.cross_cross_same, hu1, huf, smul_one, smul_zero_vec,
      sub_zero_vec]

/-! ## Behavior of the per-tick update -/

/-- Fields of the state after a tick that do not depend on the rotation
branch: the openness smoothing formula, and the fields the tick never
writes. -/
lemma updateHandTracking_fields (slerp : Quat → Quat → ℝ → Quat) (s : HTState) :
    (updateHandTracking slerp s).smoothedOpenness =
      s.smoothedOpenness + (s.targetHandOpenness - s.smoothedOpenness) * SMOOTHING ∧
    (updateHandTracking slerp s).handOpenness =
      s.smoothedOpenness + (s.targetHandOpenness - s.smoothedOpenness) * SMOOTHING ∧
    (updateHandTracking slerp s).targetHandOpenness = s.targetHandOpenness ∧
    (updateHandTracking slerp s).isHandDetected = s.isHandDetected ∧
    (updateHandTracking slerp s).handedness = s.handedness ∧
    (updateHandTracking slerp s).landmarks = s.landmarks ∧
    (updateHandTracking slerp s).targetHandRotation = s.targetHandRotation := by
  unfold updateHandTracking
  rcases hd : s.isHandDetected <;>
    rcases ht : s.targetHandRotation with _ | t <;>
    rcases hs : s.smoothedHandRotation with _ | q <;>
    simp [hd, ht, hs]

/-- The rotation half of `updateHandTracking`: slerp by `SMOOTHING * 1.5`
exactly when a hand is detected and both quaternion slots are populated;
otherwise both rotation fields are untouched. -/
lemma updateHandTracking_rotation (slerp : Quat → Quat → ℝ → Quat) (s : HTState) :
    (∀ t q, s.isHandDetected = true → s.targetHandRotation = some t →
      s.smoothedHandRotation = some q →
      (updateHandTracking slerp s).smoothedHandRotation =
        some (slerp q t (SMOOTHING * 1.5)) ∧
      (updateHandTracking slerp s).handRotation =
        some (slerp q t (SMOOTHING * 1.5))) ∧
    ((s.isHandDetected = false ∨ s.targetHandRotation = none ∨
        s.smoothedHandRotation = none) →
      (updateHandTracking slerp s).smoothedHandRotation = s.smoothedHandRotation ∧
      (updateHandTracking slerp s).handRotation = s.handRotation) := by
  constructor
  · intro t q hd ht hs
    unfold updateHandTracking
    simp [hd, ht, hs]
  · intro h
    unfold updateHandTracking
    rcases hd : s.isHandDetected <;>
      rcases ht : s.targetHandRotation with _ | t <;>
      rcases hs : s.smoothedHandRotation with _ | q <;>
      simp_all

/-! ## Behavior of the per-frame results handler -/

/-- Detected branch of `onHandResults`: the state updates and the single
update event (when a callback is registered) carrying the pre-frame
`_handOpenness` / `_handRotation` and the new landmarks. -/
lemma onHandResults_detected (three : Option (Vec3 → Vec3 → Vec3 → Quat))
    (s : HTState) (results : HandResults) (lm : Fin 21 → Landmark)
    (rest : List (Fin 21 → Landmark))
    (h : results.multiHandLandmarks = some (lm :: rest)) :
    (onHandResults three s results).1.isHandDetected = true ∧
    (onHandResults three s results).1.landmarks = some lm ∧
    (onHandResults three s results).1.targetHandOpenness = calculateHandOpenness lm ∧
    (onHandResults three s results).1.targetHandRotation = calculateHandRotation three lm ∧
    (onHandResults three s results).1.smoothedOpenness = s.smoothedOpenness ∧
    (onHandResults three s results).1.handOpenness = s.handOpenness ∧
    (onHandResults three s results).2 =
      (if s.onHandUpdate then [HTEvent.update s.handOpenness s.handRotation lm] else []) := by
  unfold onHandResults
  rw [h]
  exact ⟨rfl, rfl, rfl, rfl, rfl, rfl, rfl⟩

/-- Absent branch of `onHandResults`: detection cleared, landmarks
cleared, target openness forced to 0, handedness and both smoothed values
untouched, and the lost event (when a callback is registered). -/
lemma onHandResults_absent (three : Option (Vec3 → Vec3 → Vec3 → Quat))
    (s : HTState) (results : HandResults)
    (h : results.multiHandLandmarks = none ∨ results.multiHandLandmarks = some []) :
    (onHandResults three s results).1.isHandDetected = false ∧
    (onHandResults three s results).1.landmarks = none ∧
    (onHandResults three s results).1.targetHandOpenness = 0 ∧
    (onHandResults three s results).1.handedness = s.handedness ∧
    (onHandResults three s results).1.smoothedOpenness = s.smoothedOpenness ∧
    (onHandResults three s results).1.handOpenness = s.handOpenness ∧
    (onHandResults three s results).2 =
      (if s.onHandLost then [HTEvent.lost] else []) := by
  unfold onHandResults
  rcases h with h | h <;> rw [h] <;> exact ⟨rfl, rfl, rfl, rfl, rfl, rfl, rfl⟩

/-- The target openness set by any frame lies in `[0,1]`. -/
lemma onHandResults_target_mem (three : Option (Vec3 → Vec3 → Vec3 → Quat))
    (s : HTState) (results : HandResults) :
    0 ≤ (onHandResults three s results).1.targetHandOpenness ∧
    (onHandResults three s results).1.targetHandOpenness ≤ 1 := by
  unfold onHandResults
  rcases results.multiHandLandmarks with _ | ⟨_ | ⟨lm, rest⟩⟩
  · exact ⟨le_refl 0, by norm_num⟩
  · exact ⟨le_refl 0, by norm_num⟩
  · exact calculateHandOpenness_mem lm

/-- No frame ever writes the smoothed openness. -/
lemma onHandResults_smoothed (three : Option (Vec3 → Vec3 → Vec3 → Quat))
    (s : HTState) (results : HandResults) :
    (onHandResults three s results).1.smoothedOpenness = s.smoothedOpenness := by
  unfold onHandResults
  rcases results.multiHandLandmarks with _ | ⟨_ | ⟨lm, rest⟩⟩ <;> rfl

/-! ## Reachable-state invariant -/

/-- The openness invariant: both the target and the smoothed openness lie
in `[0,1]`. -/
def opennessInv (s : HTState) : Prop :=
  0 ≤ s.targetHandOpenness ∧ s.targetHandOpenness ≤ 1 ∧
  0 ≤ s.smoothedOpenness ∧ s.smoothedOpenness ≤ 1

/-- Every step of the module preserves the openness invariant; a tick
replaces the smoothed value by a convex combination of itself and the
target. -/
lemma stepState_preserves_inv (three : Option (Vec3 → Vec3 → Vec3 → Quat))
    (slerp : Quat → Quat → ℝ → Quat) (s : HTState) (a : HTAction)
    (h : opennessInv s) : opennessInv (stepState three slerp s a) := by
  obtain ⟨ht0, ht1, hs0, hs1⟩ := h
  cases a with
  | frame results =>
    have hmem := onHandResults_target_mem three s results
    have hsm := onHandResults_smoothed three s results
    have hstep : stepState three slerp s (HTAction.frame results) =
        (onHandResults three s results).1 := rfl
    rw [opennessInv, hstep, hsm]
    exact ⟨hmem.1, hmem.2, hs0, hs1⟩
  | tick =>
    have hf := updateHandTracking_fields slerp s
    refine ⟨?_, ?_, ?_, ?_⟩ <;>
      rw [show stepState three slerp s HTAction.tick = updateHandTracking slerp s from rfl]
    · rw [hf.2.2.1]; exact ht0
    · rw [hf.2.2.1]; exact ht1
    · rw [hf.1]; unfold SMOOTHING; nlinarith
    · rw [hf.1]; unfold SMOOTHING; nlinarith

/-- The openness invariant holds along any run. -/
lemma runActions_preserves_inv (three : Option (Vec3 → Vec3 → Vec3 → Quat))
    (slerp : Quat → Quat → ℝ → Quat) (s : HTState) (acts : List HTAction)
    (h : opennessInv s) : opennessInv (runActions three slerp s acts) := by
  induction acts generalizing s with
  | nil => exact h
  | cons a rest ih =>
    exact ih (stepState three slerp s a) (stepState_preserves_inv three slerp s a h)

/-- Handedness is preserved by ticks and by hand-free frames. -/
lemma stepState_handedness (three : Option (Vec3 → Vec3 → Vec3 → Quat))
    (slerp : Quat → Quat → ℝ → Quat) (s : HTState) (a : HTAction)
    (h : noHandAction a) : (stepState three slerp s a).handedness = s.handedness := by
  cases a with
  | frame results => exact (onHandResults_absent three s results h).2.2.2.1
  | tick => exact (updateHandTracking_fields slerp s).2.2.2.2.1

/-! ## Repeated ticks with a constant target -/

/-- One tick multiplies the distance from the target by `1 - SMOOTHING`. -/
lemma tick_diff (slerp : Quat → Quat → ℝ → Quat) (s : HTState) :
    s.targetHandOpenness - (updateHandTracking slerp s).smoothedOpenness =
      (1 - SMOOTHING) * (s.targetHandOpenness - s.smoothedOpenness) := by
  rw [(updateHandTracking_fields slerp s).1]
  ring

/-- Ticks never change the target openness. -/
lemma iterate_tick_target (slerp : Quat → Quat → ℝ → Quat) (s : HTState) (n : ℕ) :
    ((updateHandTracking slerp)^[n] s).targetHandOpenness = s.targetHandOpenness := by
  induction n with
  | zero => rfl
  | succ n ih =>
    rw [Function.iterate_succ_apply',
      (updateHandTracking_fields slerp _).2.2.1, ih]

/-- After `n` ticks the distance from the (constant) target has shrunk by
the factor `(1 - SMOOTHING)^n`, with its sign preserved. -/
lemma iterate_tick_diff (slerp : Quat → Quat → ℝ → Quat) (s : HTState) (n : ℕ) :
    s.targetHandOpenness - ((updateHandTracking slerp)^[n] s).smoothedOpenness =
      (1 - SMOOTHING) ^ n * (s.targetHandOpenness - s.smoothedOpenness) := by
  induction n with
  | zero => rw [pow_zero, one_mul]; rfl
  | succ n ih =>
    rw [Function.iterate_succ_apply']
    have h := tick_diff slerp ((updateHandTracking slerp)^[n] s)
    rw [iterate_tick_target] at h
    rw [h, ih, pow_succ]
    ring

/-! ## Uniform scaling about the wrist -/

/-- Scalar identity behind `dist3_scaleAboutWrist`. -/
lemma sq_scale (w a b k : ℝ) :
    (w + k * (b - w) - (w + k * (a - w))) * (w + k * (b - w) - (w + k * (a - w))) =
      k * k * ((b - a) * (b - a)) := by
  ring

/-- Scaling about the wrist multiplies every landmark distance by `k`. -/
lemma dist3_scaleAboutWrist (k : ℝ) (hk : 0 ≤ k) (lm : Fin 21 → Landmark)
    (i j : Fin 21) :
    dist3 (scaleAboutWrist k lm i) (scaleAboutWrist k lm j) =
      k * dist3 (lm i) (lm j) := by
  unfold scaleAboutWrist dist3
  dsimp only
  rw [sq_scale, sq_scale, sq_scale, ← mul_add, ← mul_add,
    Real.sqrt_mul (mul_self_nonneg k), Real.sqrt_mul_self hk]

/-! ## Evaluations on the concrete landmark sets -/

/-- Distances within the shrunken open hand. -/
lemma dist3_lmTiny (i j : Fin 21) :
    dist3 (lmTiny i) (lmTiny j) = |0.002 * xOpen j.val - 0.002 * xOpen i.val| := by
  unfold lmTiny
  exact dist3_xaxis _ _ 0 0

/-- Distances within the thumb-base-distinguishing hand. -/
lemma dist3_lmThumb (i j : Fin 21) :
    dist3 (lmThumb i) (lmThumb j) = |xThumb j.val - xThumb i.val| := by
  unfold lmThumb
  exact dist3_xaxis _ _ 0 0

/-- The reference distance of the open hand is 1. -/
lemma dist3_lmOpen_ref : dist3 (lmOpen 0) (lmOpen 9) = 1 := by
  rw [dist3_lmOpen]
  simp only [finVals.1, finVals.2.2.2.2.2.1]
  norm_num [xOpen, abs_of_nonneg, min_def, max_def]

/-- The reference distance of the shrunken open hand is 0.002. -/
lemma dist3_lmTiny_ref : dist3 (lmTiny 0) (lmTiny 9) = 0.002 := by
  rw [dist3_lmTiny]
  simp only [finVals.1, finVals.2.2.2.2.2.1]
  norm_num [xOpen, abs_of_nonneg, min_def, max_def]

/-- The shrunken open hand still evaluates to openness 1. -/
lemma calculateHandOpenness_lmTiny : calculateHandOpenness lmTiny = 1 := by
  unfold calculateHandOpenness
  rw [dist3_lmTiny, dist3_lmTiny, dist3_lmTiny, dist3_lmTiny, dist3_lmTiny,
    dist3_lmTiny]
  simp only [finVals.1, finVals.2.1, finVals.2.2.1, finVals.2.2.2.1,
    finVals.2.2.2.2.1, finVals.2.2.2.2.2.1, finVals.2.2.2.2.2.2.1,
    finVals.2.2.2.2.2.2.2.1, finVals.2.2.2.2.2.2.2.2.1,
    finVals.2.2.2.2.2.2.2.2.2.1, finVals.2.2.2.2.2.2.2.2.2.2]
  norm_num [xOpen, abs_of_nonneg, min_def, max_def]

/-- Value of the `Fin 21` literal 3, used only by the thumb-base spec
variant. -/
lemma finVal3 : ((3 : Fin 21)).val = 3 := rfl

/-- On the thumb-base-distinguishing hand the source computes
openness `13/40` (thumb ratio `0.5` from the MCP landmark 2). -/
lemma calculateHandOpenness_lmThumb : calculateHandOpenness lmThumb = 13 / 40 := by
  unfold calculateHandOpenness
  rw [dist3_lmThumb, dist3_lmThumb, dist3_lmThumb, dist3_lmThumb, dist3_lmThumb,
    dist3_lmThumb]
  simp only [finVals.1, finVals.2.1, finVals.2.2.1, finVals.2.2.2.1,
    finVals.2.2.2.2.1, finVals.2.2.2.2.2.1, finVals.2.2.2.2.2.2.1,
    finVals.2.2.2.2.2.2.2.1, finVals.2.2.2.2.2.2.2.2.1,
    finVals.2.2.2.2.2.2.2.2.2.1, finVals.2.2.2.2.2.2.2.2.2.2]
  norm_num [xThumb, abs_of_nonneg, min_def, max_def]

/-- With the spec's thumb-IP base (landmark 3) the same hand would rate
openness `3/40` (thumb ratio 0, since tip and IP coincide). -/
lemma opennessPerSpec3_lmThumb : opennessPerSpec 3 lmThumb = 3 / 40 := by
  unfold opennessPerSpec
  simp only [List.sum_cons, List.sum_nil, add_zero]
  rw [dist3_lmThumb, dist3_lmThumb, dist3_lmThumb, dist3_lmThumb, dist3_lmThumb,
    dist3_lmThumb]
  simp only [finVals.1, finVals.2.1, finVals.2.2.1, finVals.2.2.2.1,
    finVals.2.2.2.2.1, finVals.2.2.2.2.2.1, finVals.2.2.2.2.2.2.1,
    finVals.2.2.2.2.2.2.2.1, finVals.2.2.2.2.2.2.2.2.1,
    finVals.2.2.2.2.2.2.2.2.2.1, finVals.2.2.2.2.2.2.2.2.2.2, finVal3]
  norm_num [xThumb, abs_of_nonneg, min_def, max_def]

/-! ## Claim theorems -/

/-- Claim C1 (counterexample): scale invariance as stated is false, because
the epsilon guard is applied to the scaled set as well.  The shrunken open
hand has scale reference `0.002 > 0.001` and openness 1, yet scaling by
`k = 1/10` drives the reference below the threshold and the openness to 0. -/
theorem openness_scale_invariance_cex :
    0.001 < dist3 (lmTiny 0) (lmTiny 9) ∧ (0 : ℝ) < 1 / 10 ∧
    calculateHandOpenness (scaleAboutWrist (1 / 10) lmTiny) ≠
      calculateHandOpenness lmTiny := by
  refine ⟨by rw [dist3_lmTiny_ref]; norm_num, by norm_num, ?_⟩
  have hsmall : dist3 (scaleAboutWrist (1 / 10) lmTiny 0)
      (scaleAboutWrist (1 / 10) lmTiny 9) < 0.001 := by
    rw [dist3_scaleAboutWrist (1 / 10) (by norm_num) lmTiny 0 9, dist3_lmTiny_ref]
    norm_num
  rw [calculateHandOpenness_degenerate _ hsmall, calculateHandOpenness_lmTiny]
  norm_num

/-- Claim C1 (amended): scaling all landmarks about the wrist by `k > 0`
leaves the openness unchanged provided the scale reference clears the
epsilon threshold both before and after scaling. -/
theorem openness_scale_invariant (lm : Fin 21 → Landmark) (k : ℝ) (hk : 0 < k)
    (h1 : ¬ dist3 (lm 0) (lm 9) < 0.001)
    (h2 : ¬ dist3 (scaleAboutWrist k lm 0) (scaleAboutWrist k lm 9) < 0.001) :
    calculateHandOpenness (scaleAboutWrist k lm) = calculateHandOpenness lm := by
  have hd : ∀ i j : Fin 21, dist3 (scaleAboutWrist k lm i) (scaleAboutWrist k lm j) =
      k * dist3 (lm i) (lm j) := fun i j => dist3_scaleAboutWrist k hk.le lm i j
  rw [hd 0 9] at h2
  unfold calculateHandOpenness
  rw [hd 0 9, hd 2 4, hd 5 8, hd 9 12, hd 13 16, hd 17 20, if_neg h2, if_neg h1]
  simp only [mul_div_mul_left _ _ (ne_of_gt hk)]

/-- Witness for the amended C1: the open hand scaled by 2. -/
theorem openness_scale_invariant_witness :
    (0 : ℝ) < 2 ∧ ¬ dist3 (lmOpen 0) (lmOpen 9) < 0.001 ∧
    ¬ dist3 (scaleAboutWrist 2 lmOpen 0) (scaleAboutWrist 2 lmOpen 9) < 0.001 ∧
    calculateHandOpenness (scaleAboutWrist 2 lmOpen) = calculateHandOpenness lmOpen := by
  have h1 : ¬ dist3 (lmOpen 0) (lmOpen 9) < 0.001 := by
    rw [dist3_lmOpen_ref]; norm_num
  have h2 : ¬ dist3 (scaleAboutWrist 2 lmOpen 0) (scaleAboutWrist 2 lmOpen 9) < 0.001 := by
    rw [dist3_scaleAboutWrist 2 (by norm_num) lmOpen 0 9, dist3_lmOpen_ref]
    norm_num
  exact ⟨by norm_num, h1, h2, openness_scale_invariant lmOpen 2 (by norm_num) h1 h2⟩

/-- Claim C2: for every non-degenerate 4-point input (the raw up and right
candidate vectors nonzero and not parallel), the basis `(right, up,
forward)` built by `calculateHandRotation` — after the re-orthogonalization
of `right` — is a right-handed orthonormal triple: all pairwise dot
products vanish, all three lengths are 1, and `right × up = forward`. -/
theorem handBasis_orthonormal (lm : Fin 21 → Landmark)
    (hu : Vec3.sub (toVec (lm 9)) (toVec (lm 0)) ≠ Vec3.zero)
    (hr : Vec3.sub (toVec (lm 5)) (toVec (lm 17)) ≠ Vec3.zero)
    (hc : Vec3.cross (Vec3.sub (toVec (lm 5)) (toVec (lm 17)))
        (Vec3.sub (toVec (lm 9)) (toVec (lm 0))) ≠ Vec3.zero) :
    Vec3.dot (handBasis lm).1 (handBasis lm).2.1 = 0 ∧
    Vec3.dot (handBasis lm).1 (handBasis lm).2.2 = 0 ∧
    Vec3.dot (handBasis lm).2.1 (handBasis lm).2.2 = 0 ∧
    Vec3.length (handBasis lm).1 = 1 ∧
    Vec3.length (handBasis lm).2.1 = 1 ∧
    Vec3.length (handBasis lm).2.2 = 1 ∧
    Vec3.cross (handBasis lm).1 (handBasis lm).2.1 = (handBasis lm).2.2 :=
  basis_orthonormal_aux (Vec3.sub (toVec (lm 9)) (toVec (lm 0)))
    (Vec3.sub (toVec (lm 5)) (toVec (lm 17))) hu hr hc

/-- Witness for C2 at the concrete non-degenerate hand `lmBasis`. -/
theorem handBasis_orthonormal_witness :
    Vec3.sub (toVec (lmBasis 9)) (toVec (lmBasis 0)) ≠ Vec3.zero ∧
    Vec3.sub (toVec (lmBasis 5)) (toVec (lmBasis 17)) ≠ Vec3.zero ∧
    Vec3.cross (Vec3.sub (toVec (lmBasis 5)) (toVec (lmBasis 17)))
      (Vec3.sub (toVec (lmBasis 9)) (toVec (lmBasis 0))) ≠ Vec3.zero ∧
    Vec3.dot (handBasis lmBasis).1 (handBasis lmBasis).2.1 = 0 ∧
    Vec3.length (handBasis lmBasis).2.1 = 1 := by
  have l9 : lmBasis 9 = ⟨0.5, -0.5, 0⟩ := rfl
  have l0 : lmBasis 0 = ⟨0.5, 0.5, 0⟩ := rfl
  have l5 : lmBasis 5 = ⟨1.5, 0.5, 0⟩ := rfl
  have l17 : lmBasis 17 = ⟨0.5, 0.5, 0⟩ := rfl
  have e9 : toVec (lmBasis 9) = ⟨0, 1, 0⟩ := by
    rw [l9]; norm_num [toVec, Vec3.mk.injEq]
  have e0 : toVec (lmBasis 0) = ⟨0, 0, 0⟩ := by
    rw [l0]; norm_num [toVec, Vec3.mk.injEq]
  have e5 : toVec (lmBasis 5) = ⟨1, 0, 0⟩ := by
    rw [l5]; norm_num [toVec, Vec3.mk.injEq]
  have e17 : toVec (lmBasis 17) = ⟨0, 0, 0⟩ := by
    rw [l17]; norm_num [toVec, Vec3.mk.injEq]
  have hu : Vec3.sub (toVec (lmBasis 9)) (toVec (lmBasis 0)) ≠ Vec3.zero := by
    rw [e9, e0]
    simp [Vec3.sub, Vec3.zero, Vec3.mk.injEq]
  have hr : Vec3.sub (toVec (lmBasis 5)) (toVec (lmBasis 17)) ≠ Vec3.zero := by
    rw [e5, e17]
    simp [Vec3.sub, Vec3.zero, Vec3.mk.injEq]
  have hc : Vec3.cross (Vec3.sub (toVec (lmBasis 5)) (toVec (lmBasis 17)))
      (Vec3.sub (toVec (lmBasis 9)) (toVec (lmBasis 0))) ≠ Vec3.zero := by
    rw [e9, e0, e5, e17]
    simp [Vec3.sub, Vec3.cross, Vec3.zero, Vec3.mk.injEq]
  have h := handBasis_orthonormal lmBasis hu hr hc
  exact ⟨hu, hr, hc, h.1, h.2.2.2.2.1⟩

/-- Claim C3: starting from the initial state, after any interleaving of
detector frames and update ticks both the smoothed and the target openness
lie in `[0,1]`. -/
theorem run_openness_in_unit_interval (three : Option (Vec3 → Vec3 → Vec3 → Quat))
    (slerp : Quat → Quat → ℝ → Quat) (acts : List HTAction) :
    0 ≤ (runActions three slerp initState acts).smoothedOpenness ∧
    (runActions three slerp initState acts).smoothedOpenness ≤ 1 ∧
    0 ≤ (runActions three slerp initState acts).targetHandOpenness ∧
    (runActions three slerp initState acts).targetHandOpenness ≤ 1 := by
  have h0 : opennessInv initState := by
    unfold opennessInv initState
    norm_num
  have h := runActions_preserves_inv three slerp initState acts h0
  exact ⟨h.2.2.1, h.2.2.2, h.1, h.2.1⟩

/-- Claim C4: with the target held constant (ticks never change it), each
tick scales the signed distance from the target by `1 - SMOOTHING`; hence
after `n` ticks the absolute distance equals `(1 - SMOOTHING)^n` times the
initial one, is monotonically nonincreasing, and the smoothed value never
crosses to the other side of the target. -/
theorem smoothing_converges (slerp : Quat → Quat → ℝ → Quat) (s : HTState)
    (h0 : 0 ≤ s.targetHandOpenness) (h1 : s.targetHandOpenness ≤ 1) (n : ℕ) :
    ((updateHandTracking slerp)^[n] s).targetHandOpenness = s.targetHandOpenness ∧
    s.targetHandOpenness - ((updateHandTracking slerp)^[n + 1] s).smoothedOpenness =
      (1 - SMOOTHING) *
        (s.targetHandOpenness - ((updateHandTracking slerp)^[n] s).smoothedOpenness) ∧
    |s.targetHandOpenness - ((updateHandTracking slerp)^[n] s).smoothedOpenness| =
      (1 - SMOOTHING) ^ n * |s.targetHandOpenness - s.smoothedOpenness| ∧
    |s.targetHandOpenness - ((updateHandTracking slerp)^[n + 1] s).smoothedOpenness| ≤
      |s.targetHandOpenness - ((updateHandTracking slerp)^[n] s).smoothedOpenness| ∧
    0 ≤ (s.targetHandOpenness - ((updateHandTracking slerp)^[n] s).smoothedOpenness) *
      (s.targetHandOpenness - s.smoothedOpenness) := by
  have hα : (0 : ℝ) ≤ 1 - SMOOTHING := by norm_num [SMOOTHING]
  have hdiff := iterate_tick_diff slerp s n
  have hdiff1 := iterate_tick_diff slerp s (n + 1)
  refine ⟨iterate_tick_target slerp s n, ?_, ?_, ?_, ?_⟩
  · rw [Function.iterate_succ_apply']
    have h := tick_diff slerp ((updateHandTracking slerp)^[n] s)
    rw [iterate_tick_target] at h
    exact h
  · rw [hdiff, abs_mul, abs_of_nonneg (pow_nonneg hα n)]
  · rw [hdiff, hdiff1, abs_mul, abs_mul, abs_of_nonneg (pow_nonneg hα n),
      abs_of_nonneg (pow_nonneg hα (n + 1)), pow_succ]
    have hd0 := abs_nonneg (s.targetHandOpenness - s.smoothedOpenness)
    have hp := pow_nonneg hα n
    have hs : (0 : ℝ) ≤ SMOOTHING := by norm_num [SMOOTHING]
    have hle : (1 - SMOOTHING) ^ n * (1 - SMOOTHING) ≤ (1 - SMOOTHING) ^ n := by
      nlinarith [hp, hs]
    exact mul_le_mul_of_nonneg_right hle hd0
  · rw [hdiff]
    have := mul_self_nonneg (s.targetHandOpenness - s.smoothedOpenness)
    have hp := pow_nonneg hα n
    nlinarith

/-- Witness for C4: target 1, smoothed 0, two ticks. -/
theorem smoothing_converges_witness :
    0 ≤ stTarget1.targetHandOpenness ∧ stTarget1.targetHandOpenness ≤ 1 ∧
    ((updateHandTracking trivSlerp)^[2] stTarget1).targetHandOpenness =
      stTarget1.targetHandOpenness := by
  have h0 : (0 : ℝ) ≤ stTarget1.targetHandOpenness := by norm_num [stTarget1, initState]
  have h1 : stTarget1.targetHandOpenness ≤ 1 := by norm_num [stTarget1, initState]
  exact ⟨h0, h1, (smoothing_converges trivSlerp stTarget1 h0 h1 2).1⟩

/-- Claim C5: when the wrist-to-middle-MCP distance is below 0.001, the
openness is exactly 0 — the guard returns before any division by the scale
reference is formed. -/
theorem openness_degenerate_returns_zero (lm : Fin 21 → Landmark)
    (h : dist3 (lm 0) (lm 9) < 0.001) : calculateHandOpenness lm = 0 :=
  calculateHandOpenness_degenerate lm h

/-- Witness for C5: all 21 landmarks at the origin. -/
theorem openness_degenerate_returns_zero_witness :
    dist3 (lmZero 0) (lmZero 9) < 0.001 ∧ calculateHandOpenness lmZero = 0 := by
  have h : dist3 (lmZero 0) (lmZero 9) < 0.001 := by
    unfold lmZero
    rw [dist3_xaxis]
    norm_num
  exact ⟨h, openness_degenerate_returns_zero lmZero h⟩

/-- Claim C6: a frame whose hand list is absent or empty clears detection,
clears the stored landmarks, forces the target openness to exactly 0, and
fires the registered hand-lost callback. -/
theorem hand_lost_clears_state (three : Option (Vec3 → Vec3 → Vec3 → Quat))
    (s : HTState) (results : HandResults)
    (h : results.multiHandLandmarks = none ∨ results.multiHandLandmarks = some [])
    (hcb : s.onHandLost = true) :
    (onHandResults three s results).1.isHandDetected = false ∧
    (onHandResults three s results).1.landmarks = none ∧
    (onHandResults three s results).1.targetHandOpenness = 0 ∧
    (onHandResults three s results).2 = [HTEvent.lost] := by
  have ha := onHandResults_absent three s results h
  exact ⟨ha.1, ha.2.1, ha.2.2.1, by rw [ha.2.2.2.2.2.2, if_pos hcb]⟩

/-- Witness for C6: a detected-hand state with a registered lost callback
and a nonzero target processes an empty frame — detection flips from true
to false, the target drops to 0, and the lost event fires. -/
theorem hand_lost_clears_state_witness :
    (resNone.multiHandLandmarks = none ∨ resNone.multiHandLandmarks = some []) ∧
    stLostCb.onHandLost = true ∧ stLostCb.isHandDetected = true ∧
    stLostCb.targetHandOpenness = 0.5 ∧
    ((onHandResults none stLostCb resNone).1.isHandDetected = false ∧
     (onHandResults none stLostCb resNone).1.landmarks = none ∧
     (onHandResults none stLostCb resNone).1.targetHandOpenness = 0 ∧
     (onHandResults none stLostCb resNone).2 = [HTEvent.lost]) :=
  ⟨Or.inl rfl, rfl, rfl, rfl,
    hand_lost_clears_state none stLostCb resNone (Or.inl rfl) rfl⟩

/-- Claim C7 (counterexample): the per-finger ratios of the source use the
thumb MCP (landmark 2) as the thumb's base, not the interphalangeal joint
(landmark 3) stated by the claim: on `lmThumb` the source computes `13/40`
while the thumb-IP variant of the spec's algorithm computes `3/40`. -/
theorem openness_thumb_base_cex :
    calculateHandOpenness lmThumb = 13 / 40 ∧
    opennessPerSpec 3 lmThumb = 3 / 40 ∧
    calculateHandOpenness lmThumb ≠ opennessPerSpec 3 lmThumb := by
  refine ⟨calculateHandOpenness_lmThumb, opennessPerSpec3_lmThumb, ?_⟩
  rw [calculateHandOpenness_lmThumb, opennessPerSpec3_lmThumb]
  norm_num

/-- Claim C7 (amended): `calculateHandOpenness` agrees everywhere with the
spec's per-finger-ratio algorithm when the thumb's base is taken to be the
thumb MCP, landmark 2 (tip/base pairs `(4,2), (8,5), (12,9), (16,13),
(20,17)`, each ratio a tip-to-base distance over the scale reference). -/
theorem openness_matches_spec_thumb_mcp (lm : Fin 21 → Landmark) :
    calculateHandOpenness lm = opennessPerSpec 2 lm := by
  unfold calculateHandOpenness opennessPerSpec
  simp only [List.sum_cons, List.sum_nil, add_zero]

/-- Claim C8 (counterexample): the update-callback snapshot does not carry
the current frame's raw openness: processing the open hand (openness 1)
from the initial state delivers a snapshot whose openness field is 0 (the
pre-frame smoothed value). -/
theorem hand_update_snapshot_cex :
    (onHandResults none stUpdateCb resOpen).2 = [HTEvent.update 0 none lmOpen] ∧
    calculateHandOpenness lmOpen = 1 ∧ ((0 : ℝ) ≠ 1) := by
  refine ⟨?_, calculateHandOpenness_lmOpen, by norm_num⟩
  rw [(onHandResults_detected none stUpdateCb resOpen lmOpen [] rfl).2.2.2.2.2.2]
  rfl

/-- Claim C8 (amended): every detected-hand frame with a registered update
callback fires it exactly once, and the snapshot carries the module's
pre-frame `_handOpenness` and `_handRotation` (the smoothed values not yet
re-smoothed with this frame's measurement) together with the current
frame's landmark set. -/
theorem hand_update_event_once (three : Option (Vec3 → Vec3 → Vec3 → Quat))
    (s : HTState) (results : HandResults) (lm : Fin 21 → Landmark)
    (rest : List (Fin 21 → Landmark))
    (h : results.multiHandLandmarks = some (lm :: rest))
    (hcb : s.onHandUpdate = true) :
    (onHandResults three s results).2 =
      [HTEvent.update s.handOpenness s.handRotation lm] := by
  rw [(onHandResults_detected three s results lm rest h).2.2.2.2.2.2, if_pos hcb]

/-- Witness for the amended C8. -/
theorem hand_update_event_once_witness :
    resOpen.multiHandLandmarks = some (lmOpen :: []) ∧
    stUpdateCb.onHandUpdate = true ∧
    (onHandResults none stUpdateCb resOpen).2 =
      [HTEvent.update stUpdateCb.handOpenness stUpdateCb.handRotation lmOpen] :=
  ⟨rfl, rfl, hand_update_event_once none stUpdateCb resOpen lmOpen [] rfl rfl⟩

/-- Claim C9: handedness is sticky — from any state reporting "Left",
any run of update ticks and hand-free frames still reports "Left". -/
theorem handedness_sticky (three : Option (Vec3 → Vec3 → Vec3 → Quat))
    (slerp : Quat → Quat → ℝ → Quat) (s : HTState) (acts : List HTAction)
    (hL : s.handedness = "Left") (hacts : ∀ a ∈ acts, noHandAction a) :
    (runActions three slerp s acts).handedness = "Left" := by
  induction acts generalizing s with
  | nil => exact hL
  | cons a rest ih =>
    have h1 : noHandAction a := hacts a (List.mem_cons_self a rest)
    have h2 : ∀ b ∈ rest, noHandAction b := fun b hb =>
      hacts b (List.mem_cons_of_mem a hb)
    have hstep : runActions three slerp s (a :: rest) =
        runActions three slerp (stepState three slerp s a) rest := rfl
    rw [hstep]
    exact ih (stepState three slerp s a)
      (by rw [stepState_handedness three slerp s a h1]; exact hL) h2

/-- Witness for C9: a "Left" state survives an absent frame, a tick and an
empty frame. -/
theorem handedness_sticky_witness :
    ({ initState with handedness := "Left" } : HTState).handedness = "Left" ∧
    (∀ a ∈ [HTAction.frame resNone, HTAction.tick, HTAction.frame resEmpty],
      noHandAction a) ∧
    (runActions none trivSlerp { initState with handedness := "Left" }
      [HTAction.frame resNone, HTAction.tick, HTAction.frame resEmpty]).handedness =
      "Left" := by
  have hacts : ∀ a ∈ [HTAction.frame resNone, HTAction.tick, HTAction.frame resEmpty],
      noHandAction a := by
    intro a ha
    simp only [List.mem_cons, List.not_mem_nil, or_false] at ha
    rcases ha with rfl | rfl | rfl
    · exact Or.inl rfl
    · exact trivial
    · exact Or.inr rfl
  exact ⟨rfl, hacts,
    handedness_sticky none trivSlerp { initState with handedness := "Left" }
      [HTAction.frame resNone, HTAction.tick, HTAction.frame resEmpty] rfl hacts⟩

/-- Claim C10: on a tick, the smoothed orientation is advanced by one slerp
step of fraction `SMOOTHING * 1.5 = 0.18` toward the target exactly when a
hand is detected and both the target and smoothed quaternions exist; in
every other case the tick leaves the smoothed (and published) orientation
exactly unchanged. -/
theorem tick_rotation_slerp_guarded (slerp : Quat → Quat → ℝ → Quat) (s : HTState) :
    SMOOTHING * 1.5 = 0.18 ∧
    (∀ t q, s.isHandDetected = true → s.targetHandRotation = some t →
      s.smoothedHandRotation = some q →
      (updateHandTracking slerp s).smoothedHandRotation =
        some (slerp q t (SMOOTHING * 1.5)) ∧
      (updateHandTracking slerp s).handRotation =
        some (slerp q t (SMOOTHING * 1.5))) ∧
    ((s.isHandDetected = false ∨ s.targetHandRotation = none ∨
        s.smoothedHandRotation = none) →
      (updateHandTracking slerp s).smoothedHandRotation = s.smoothedHandRotation ∧
      (updateHandTracking slerp s).handRotation = s.handRotation) :=
  ⟨by norm_num [SMOOTHING], (updateHandTracking_rotation slerp s).1,
    (updateHandTracking_rotation slerp s).2⟩

/-- Witness for C10: the slerp case on a detected state with both slots
populated, and the hold case on the initial state. -/
theorem tick_rotation_slerp_guarded_witness :
    stRot.isHandDetected = true ∧
    stRot.targetHandRotation = some ⟨0, 0, 0, 1⟩ ∧
    stRot.smoothedHandRotation = some ⟨1, 0, 0, 0⟩ ∧
    (updateHandTracking trivSlerp stRot).smoothedHandRotation =
      some (trivSlerp ⟨1, 0, 0, 0⟩ ⟨0, 0, 0, 1⟩ (SMOOTHING * 1.5)) ∧
    initState.isHandDetected = false ∧
    (updateHandTracking trivSlerp initState).smoothedHandRotation =
      initState.smoothedHandRotation :=
  ⟨rfl, rfl, rfl,
    ((tick_rotation_slerp_guarded trivSlerp stRot).2.1 ⟨0, 0, 0, 1⟩ ⟨1, 0, 0, 0⟩
      rfl rfl rfl).1,
    rfl,
    ((tick_rotation_slerp_guarded trivSlerp initState).2.2 (Or.inl rfl)).1⟩

end HandTracking
